import Mathlib

/-!
A verification development for the spark-optimus configuration tooling.

The Python sources `spark_config_mcp/spark_config_parser.py`,
`spark_config_mcp/config_analyzer.py` and `spark_config_mcp/models.py` are
shallowly embedded below.  File contents are supplied through an explicit
filesystem map `fs : String → Option String` (a missing path maps to `none`);
physical lines carry no trailing newline character, so Python's
`rstrip('\n')` on an individual line is the identity in this embedding.
Python exceptions raised by `int(...)` are modelled with `Except Unit`.
CPython `str.strip` / regex `\s` whitespace classes are modelled with
`Char.isWhitespace`; the inputs manipulated by the claims only involve the
common whitespace characters on which the two classes agree.
-/

/-! ### Character and string primitives mirroring the Python operations -/

/-- Whitespace test used for Python `str.strip` and the regex class `\s`. -/
def isWs (c : Char) : Bool := c.isWhitespace

/-- Python `str.strip()` on a character list: drop whitespace at both ends. -/
def pyStripL (s : List Char) : List Char :=
  ((s.dropWhile isWs).reverse.dropWhile isWs).reverse

/-- Python `str.strip()` on a `String`. -/
def pyStrip (s : String) : String := String.mk (pyStripL s.data)

/-- Python `str.lower()` (ASCII, which is all the sources use). -/
def pyLower (s : String) : String := String.mk (s.data.map Char.toLower)

/-- Python `str.upper()` on a character list. -/
def pyUpperL (s : List Char) : List Char := s.map Char.toUpper

/-- Python substring membership `needle in hay`. -/
def containsSubL (needle : List Char) : List Char → Bool
  | [] => needle.isEmpty
  | c :: t => needle.isPrefixOf (c :: t) || containsSubL needle t

/-- Python `str.split(sep)` for a one-character separator, keeping empty
segments, as `'|'.split` and `'\n'.split` do. -/
def splitCharL (sep : Char) : List Char → List (List Char)
  | [] => [[]]
  | c :: t =>
    if c = sep then [] :: splitCharL sep t
    else
      match splitCharL sep t with
      | [] => [[c]]
      | seg :: rest => (c :: seg) :: rest

/-- Python `str.split(sep, 1)[1]` for a one-character separator: everything
after the first occurrence of `sep` (empty when `sep` does not occur, a case
the sources always guard against). -/
def afterCharL (sep : Char) : List Char → List Char
  | [] => []
  | c :: t => if c = sep then t else afterCharL sep t

/-- Digit-run value, the integer denoted by a nonempty list of ASCII digits. -/
def digitsToNat (ds : List Char) : Nat :=
  ds.foldl (fun acc c => acc * 10 + (c.toNat - 48)) 0

/-- CPython `int(s)` on an already-stripped string: optional sign followed by
a nonempty run of ASCII digits; anything else raises (here: `none`). -/
def pyIntL (s : List Char) : Option Int :=
  match s with
  | '+' :: ds => if ds ≠ [] ∧ ds.all Char.isDigit then some (digitsToNat ds) else none
  | '-' :: ds => if ds ≠ [] ∧ ds.all Char.isDigit then some (-(digitsToNat ds : Int)) else none
  | ds => if ds ≠ [] ∧ ds.all Char.isDigit then some (digitsToNat ds) else none

/-- `int(s)` on a `String`. -/
def pyIntS (s : String) : Option Int := pyIntL s.data

/-- Python file-iteration / `readlines`: split the raw text at newlines; a
trailing empty segment (text ending in a newline, or empty text) produces no
extra line. -/
def pyLinesL (text : List Char) : List (List Char) :=
  let ps := splitCharL '\n' text
  if ps.getLast? = some [] then ps.dropLast else ps

/-- Python truthiness fallback `s or d` for an optional string (`None` and
the empty string are falsy). -/
def pyOrStr (o : Option String) (d : String) : String :=
  match o with
  | some s => if s = "" then d else s
  | none => d

/-- Join with a single-space separator, Python `' '.join`. -/
def spaceJoin : List (List Char) → List Char
  | [] => []
  | [l] => l
  | l :: l' :: rest => l ++ ' ' :: spaceJoin (l' :: rest)

/-! ### Data model (`models.py`) -/

/-- `RecommendationSeverity` from `models.py`. -/
inductive RecommendationSeverity where
  | critical
  | warning
  | info
deriving DecidableEq, Repr

/-- `SparkConfig` from `models.py`.  `raw_configs` is the settings dictionary,
modelled as a lookup function (the claims only inspect membership/values). -/
structure SparkConfig where
  source_file : String
  driver_memory : Option String := none
  executor_memory : Option String := none
  executor_cores : Option Int := none
  num_executors : Option Int := none
  default_parallelism : Option Int := none
  shuffle_partitions : Option Int := none
  dynamic_allocation_enabled : Bool := false
  app_name : Option String := none
  deploy_mode : Option String := none
  master : Option String := none
  raw_configs : String → Option String := fun _ => none

/-- The record `SparkConfig(source_file=path)` that both parsers start from. -/
def SparkConfig.init (path : String) : SparkConfig := { source_file := path }

/-- Dictionary assignment `d[k] = v`. -/
def rawUpdate (m : String → Option String) (k v : String) : String → Option String :=
  fun k' => if k' = k then some v else m k'

/-- `ExecutionMetrics` from `models.py` (`raw_metrics` omitted fields kept as
an opaque lookup for fidelity; no claim inspects it). -/
structure ExecutionMetrics where
  app_id : String
  app_name : String
  duration_ms : Option Int := none
  total_tasks : Int := 0
  failed_tasks : Int := 0
  total_stages : Int := 0
  failed_stages : Int := 0
  executor_memory_used : Option Int := none
  executor_memory_spilled : Option Int := none
  shuffle_read_bytes : Option Int := none
  shuffle_write_bytes : Option Int := none
  input_bytes : Option Int := none
  output_bytes : Option Int := none
  peak_memory_usage : Option Int := none
  gc_time_ms : Option Int := none
  raw_metrics : String → Option String := fun _ => none

/-- `Recommendation` from `models.py`. -/
structure Recommendation where
  severity : RecommendationSeverity
  category : String
  title : String
  description : String
  current_value : Option String := none
  recommended_value : Option String := none
  expected_impact : Option String := none
deriving DecidableEq, Repr

/-- `AnalysisResult` from `models.py`. -/
structure AnalysisResult where
  config : SparkConfig
  metrics : Option ExecutionMetrics := none
  recommendations : List Recommendation := []
  summary : String := ""
  analyzed_at : Option String := none

/-- Extract the success value of an `Except Unit SparkConfig`. -/
def getOk : Except Unit SparkConfig → Option SparkConfig
  | .ok c => some c
  | .error _ => none

/-- `True` exactly on successful parses. -/
def exceptOk : Except Unit SparkConfig → Bool
  | .ok _ => true
  | .error _ => false

/-! ### `SparkConfigParser` (`spark_config_parser.py`) -/

/-- The `multipliers` dictionary of `ConfigAnalyzer._parse_memory_mb`
(`config_analyzer.py`): `{'': 1, 'k': 1, 'm': 1, 'g': 1024, 't': 1024*1024}`,
applied to the optional matched unit character. -/
def memMultiplier : Option Char → Nat
  | some 'k' => 1
  | some 'm' => 1
  | some 'g' => 1024
  | some 't' => 1024 * 1024
  | _ => 1

/-- `ConfigAnalyzer._parse_memory_mb` (`config_analyzer.py`): lower-case the
input, match the anchored pattern of leading digits followed by an optional
unit in `kmgt`, and scale by the multiplier table.  This is the memory parser
the rule battery calls. -/
def parse_memory_mb (memory_str : String) : Option Nat :=
  let sl := memory_str.data.map Char.toLower
  let ds := sl.takeWhile Char.isDigit
  if ds = [] then none
  else
    let unit : Option Char :=
      match sl.drop ds.length with
      | c :: _ => if c = 'k' ∨ c = 'm' ∨ c = 'g' ∨ c = 't' then some c else none
      | [] => none
    some (digitsToNat ds * memMultiplier unit)

/-- The first split of `re.split(r'\s+|=', line, maxsplit=1)`: find the
leftmost character that is whitespace or `=`; the separator is the maximal
whitespace run there, or the single `=`.  `none` models a one-part result
(no separator anywhere). -/
def kvSplitL : List Char → Option (List Char × List Char)
  | [] => none
  | c :: t =>
    if isWs c then some ([], t.dropWhile isWs)
    else if c = '=' then some ([], t)
    else (kvSplitL t).map (fun kv => (c :: kv.1, kv.2))

/-- The promotion `elif` chain of `SparkConfigParser.parse_spark_defaults`:
recognized keys copy the value into the typed field, integer keys through
`int(...)` which may raise. -/
def promoteKV (cfg : SparkConfig) (key value : String) : Except Unit SparkConfig :=
  if key = "spark.driver.memory" then .ok { cfg with driver_memory := some value }
  else if key = "spark.executor.memory" then .ok { cfg with executor_memory := some value }
  else if key = "spark.executor.cores" then
    match pyIntS value with
    | some n => .ok { cfg with executor_cores := some n }
    | none => .error ()
  else if key = "spark.executor.instances" then
    match pyIntS value with
    | some n => .ok { cfg with num_executors := some n }
    | none => .error ()
  else if key = "spark.default.parallelism" then
    match pyIntS value with
    | some n => .ok { cfg with default_parallelism := some n }
    | none => .error ()
  else if key = "spark.sql.shuffle.partitions" then
    match pyIntS value with
    | some n => .ok { cfg with shuffle_partitions := some n }
    | none => .error ()
  else if key = "spark.dynamicAllocation.enabled" then
    .ok { cfg with dynamic_allocation_enabled := pyLower value = "true" }
  else if key = "spark.app.name" then .ok { cfg with app_name := some value }
  else .ok cfg

/-- The per-line tokenisation of `parse_spark_defaults`: strip the line, skip
blank and comment lines and lines that do not split into two parts, otherwise
yield the stripped `(key, value)` pair. -/
def lineKeyVal (rawLine : List Char) : Option (String × String) :=
  let line := pyStripL rawLine
  if line = [] then none
  else if line.head? = some '#' then none
  else
    match kvSplitL line with
    | none => none
    | some kv => some (String.mk (pyStripL kv.1), String.mk (pyStripL kv.2))

/-- One loop iteration of `parse_spark_defaults`: skipped lines leave the
record unchanged, otherwise store the pair in `raw_configs` and run the
promotion chain. -/
def parseDefaultsLine (cfg : SparkConfig) (rawLine : List Char) : Except Unit SparkConfig :=
  match lineKeyVal rawLine with
  | none => .ok cfg
  | some kv =>
    promoteKV { cfg with raw_configs := rawUpdate cfg.raw_configs kv.1 kv.2 } kv.1 kv.2

/-- The line loop of `parse_spark_defaults`; an `int(...)` failure aborts the
whole call, as the propagating `ValueError` does. -/
def foldDefaultsLines (cfg : SparkConfig) : List (List Char) → Except Unit SparkConfig
  | [] => .ok cfg
  | l :: ls =>
    match parseDefaultsLine cfg l with
    | .error e => .error e
    | .ok cfg' => foldDefaultsLines cfg' ls

/-- `SparkConfigParser.parse_spark_defaults`: missing file yields the fresh
record, otherwise fold the line parser over the file's lines. -/
def parse_spark_defaults (fs : String → Option String) (file_path : String) :
    Except Unit SparkConfig :=
  match fs file_path with
  | none => .ok (SparkConfig.init file_path)
  | some text => foldDefaultsLines (SparkConfig.init file_path) (pyLinesL text.data)

/-- Trailing-backslash test `line.endswith('\\')`. -/
def endsBS (line : List Char) : Bool := line.getLast? = some '\\'

/-- One continuation join `line[:-1].strip() + ' ' + next.strip()`. -/
def joinStep (acc nxt : List Char) : List Char :=
  pyStripL acc.dropLast ++ ' ' :: pyStripL nxt

/-- The inner `while` of `parse_spark_submit_script`'s joining loop, together
with the outer loop's append: consume following physical lines while the
accumulated line ends in a backslash, then emit it and continue. -/
def joinGo (line : List Char) : List (List Char) → List (List Char)
  | [] => [line]
  | nxt :: rest =>
    if endsBS line then joinGo (joinStep line nxt) rest
    else line :: joinGo nxt rest

/-- Logical-line reconstruction of `parse_spark_submit_script`. -/
def joinLines : List (List Char) → List (List Char)
  | [] => []
  | l :: rest => joinGo l rest

/-- Attempt the pattern `lit ++ \s+ ++ (tok+)` at the start of `s`, where
`tok` is the capture class (`\S` or `\d`); greedy maximal-munch matches the
regex because the classes involved are disjoint from whitespace. -/
def tryFlagTok (lit : List Char) (tok : Char → Bool) (s : List Char) : Option (List Char) :=
  if lit.isPrefixOf s then
    let r1 := s.drop lit.length
    match r1 with
    | c :: _ =>
      if isWs c then
        let r2 := r1.dropWhile isWs
        let t := r2.takeWhile tok
        if t = [] then none else some t
      else none
    | [] => none
  else none

/-- `re.search` for the flag patterns of `parse_spark_submit_script`: the
leftmost position where the whole pattern matches. -/
def searchFlagTok (lit : List Char) (tok : Char → Bool) : List Char → Option (List Char)
  | [] => none
  | c :: t =>
    match tryFlagTok lit tok (c :: t) with
    | some r => some r
    | none => searchFlagTok lit tok t

/-- The two quote characters accepted by the `APP_NAME` pattern. -/
def isQuote (c : Char) : Bool := c = '"' || c = Char.ofNat 39

/-- Attempt `APP_NAME=["'](.*?)["']` at the start of `s` (non-greedy body:
shortest run of non-quote characters, closing quote required). -/
def tryAppName (s : List Char) : Option (List Char) :=
  if "APP_NAME=".data.isPrefixOf s then
    match s.drop 9 with
    | q :: rest =>
      if isQuote q then
        let nm := rest.takeWhile (fun c => !(isQuote c))
        if rest.drop nm.length = [] then none else some nm
      else none
    | [] => none
  else none

/-- `re.search` for the `APP_NAME` pattern. -/
def searchAppName : List Char → Option (List Char)
  | [] => none
  | c :: t =>
    match tryAppName (c :: t) with
    | some r => some r
    | none => searchAppName t

/-- Attempt `--conf\s+([^\s=]+)=(\S+)` at the start of `s`; on success also
return the remainder after the match (`re.finditer` continues there). -/
def tryConf (s : List Char) : Option ((List Char × List Char) × List Char) :=
  if "--conf".data.isPrefixOf s then
    let r1 := s.drop 6
    match r1 with
    | c :: _ =>
      if isWs c then
        let r2 := r1.dropWhile isWs
        let key := r2.takeWhile (fun c => !(isWs c) && c ≠ '=')
        if key = [] then none
        else
          match r2.drop key.length with
          | '=' :: r3 =>
            let v := r3.takeWhile (fun c => !(isWs c))
            if v = [] then none else some ((key, v), r3.drop v.length)
          | _ => none
      else none
    | [] => none
  else none

/-- `re.finditer` for the `--conf` pattern: leftmost non-overlapping matches,
resuming after each match.  The fuel (one unit per character examined) always
suffices because every step consumes at least one character. -/
def findConfsAux : Nat → List Char → List (List Char × List Char)
  | 0, _ => []
  | _ + 1, [] => []
  | fuel + 1, c :: t =>
    match tryConf (c :: t) with
    | some r => r.1 :: findConfsAux fuel r.2
    | none => findConfsAux fuel t

/-- All `--conf key=value` matches in the command buffer. -/
def findConfs (s : List Char) : List (List Char × List Char) :=
  findConfsAux s.length s

/-- The `--conf` loop body of `parse_spark_submit_script`: store the pair in
`raw_configs` and promote the two integer tunables (through `int(...)`, which
may raise) and the dynamic-allocation flag. -/
def applyConf (cfg : SparkConfig) (kv : List Char × List Char) : Except Unit SparkConfig :=
  let key := String.mk kv.1
  let value := String.mk kv.2
  let cfg := { cfg with raw_configs := rawUpdate cfg.raw_configs key value }
  if key = "spark.default.parallelism" then
    match pyIntS value with
    | some n => .ok { cfg with default_parallelism := some n }
    | none => .error ()
  else if key = "spark.sql.shuffle.partitions" then
    match pyIntS value with
    | some n => .ok { cfg with shuffle_partitions := some n }
    | none => .error ()
  else if key = "spark.dynamicAllocation.enabled" then
    .ok { cfg with dynamic_allocation_enabled := pyLower value = "true" }
  else .ok cfg

/-- The `--conf` loop of `parse_spark_submit_script`. -/
def foldConfs (cfg : SparkConfig) : List (List Char × List Char) → Except Unit SparkConfig
  | [] => .ok cfg
  | kv :: rest =>
    match applyConf cfg kv with
    | .error e => .error e
    | .ok cfg' => foldConfs cfg' rest

/-- Non-whitespace, the regex class `\S`. -/
def notWs (c : Char) : Bool := !(isWs c)

/-- Python truthiness of an optional string (`None` and `""` are falsy),
used by `if not config.app_name`. -/
def truthyOptStr : Option String → Bool
  | none => false
  | some s => s ≠ ""

/-- The positional-flag extraction passes of `parse_spark_submit_script`
(`APP_NAME` literal, then the six `--flag` patterns, each searched
independently over the same buffer). -/
def extractFlags (full_command : List Char) (cfg : SparkConfig) : SparkConfig :=
  let cfg :=
    match searchAppName full_command with
    | some nm => { cfg with app_name := some (String.mk nm) }
    | none => cfg
  let cfg :=
    match searchFlagTok "--master".data notWs full_command with
    | some v => { cfg with master := some (String.mk v) }
    | none => cfg
  let cfg :=
    match searchFlagTok "--deploy-mode".data notWs full_command with
    | some v => { cfg with deploy_mode := some (String.mk v) }
    | none => cfg
  let cfg :=
    match searchFlagTok "--driver-memory".data notWs full_command with
    | some v => { cfg with driver_memory := some (String.mk v) }
    | none => cfg
  let cfg :=
    match searchFlagTok "--executor-memory".data notWs full_command with
    | some v => { cfg with executor_memory := some (String.mk v) }
    | none => cfg
  let cfg :=
    match searchFlagTok "--executor-cores".data Char.isDigit full_command with
    | some v => { cfg with executor_cores := some (digitsToNat v : Int) }
    | none => cfg
  let cfg :=
    match searchFlagTok "--num-executors".data Char.isDigit full_command with
    | some v => { cfg with num_executors := some (digitsToNat v : Int) }
    | none => cfg
  cfg

/-- The final `--name` fallback of `parse_spark_submit_script` (runs only
when `APP_NAME` left the application name falsy). -/
def nameFallback (full_command : List Char) (cfg : SparkConfig) : SparkConfig :=
  if truthyOptStr cfg.app_name then cfg
  else
    match searchFlagTok "--name".data notWs full_command with
    | some v => { cfg with app_name := some (String.mk v) }
    | none => cfg

/-- `SparkConfigParser.parse_spark_submit_script`: join continuation lines,
concatenate everything into one buffer, then run the independent extraction
passes (`APP_NAME` and positional flags, `--conf` pairs, `--name` fallback). -/
def parse_spark_submit_script (fs : String → Option String) (file_path : String) :
    Except Unit SparkConfig :=
  match fs file_path with
  | none => .ok (SparkConfig.init file_path)
  | some text =>
    let lines := pyLinesL text.data
    let full_command := spaceJoin (joinLines lines)
    match foldConfs (extractFlags full_command (SparkConfig.init file_path))
        (findConfs full_command) with
    | .error e => .error e
    | .ok cfg => .ok (nameFallback full_command cfg)

/-- Python `str.endswith` via suffix test on the character lists. -/
def pyEndsWith (s suffix : String) : Bool := suffix.data.isSuffixOf s.data

/-- `SparkConfigParser.parse_file`, the dialect dispatcher. -/
def parse_file (fs : String → Option String) (file_path : String) :
    Except Unit SparkConfig :=
  if pyEndsWith file_path "spark-defaults.conf" then parse_spark_defaults fs file_path
  else if pyEndsWith file_path ".sh" then parse_spark_submit_script fs file_path
  else
    match fs file_path with
    | some content =>
      if containsSubL "spark-submit".data content.data then
        parse_spark_submit_script fs file_path
      else parse_spark_defaults fs file_path
    | none => parse_spark_defaults fs file_path

/-! ### `ConfigAnalyzer` (`config_analyzer.py`) -/

/-- The "Excessive Driver Memory" recommendation literal from
`_rule_based_analysis`. -/
def driverMemoryRec (current : String) : Recommendation :=
  { severity := .critical
    category := "resource_allocation"
    title := "Excessive Driver Memory"
    description := "Driver memory is oversized for typical workloads. This wastes resources and increases costs."
    current_value := some current
    recommended_value := some "2g-4g"
    expected_impact := some "Reduce resource waste and costs by 50-75%" }

/-- The "Inefficient Shuffle Partitions" recommendation literal from
`_rule_based_analysis` (`current_value` is `str(config.shuffle_partitions)`). -/
def shufflePartitionsRec (n : Int) : Recommendation :=
  { severity := .warning
    category := "performance_tuning"
    title := "Inefficient Shuffle Partitions"
    description := "Too many shuffle partitions for dataset size causes overhead."
    current_value := some (toString n)
    recommended_value := some "50-100"
    expected_impact := some "Reduce shuffle overhead by 30-40%" }

/-- The "Enable Dynamic Allocation" recommendation literal from
`_rule_based_analysis`. -/
def dynamicAllocationRec : Recommendation :=
  { severity := .info
    category := "best_practices"
    title := "Enable Dynamic Allocation"
    description := "Dynamic allocation can optimize resource usage automatically."
    current_value := some "false"
    recommended_value := some "true"
    expected_impact := some "Better resource utilization and cost savings" }

/-- The "High Memory Spilling" recommendation literal from
`_rule_based_analysis`. -/
def memorySpillRec (current : String) : Recommendation :=
  { severity := .warning
    category := "performance_tuning"
    title := "High Memory Spilling"
    description := "Significant memory spilling detected. Increase executor memory."
    current_value := some current
    recommended_value := some "Increase by 50%"
    expected_impact := some "Reduce disk I/O and improve performance by 20-30%" }

/-- Rule 1 of `_rule_based_analysis` (driver memory).  Python truthiness of
`config.driver_memory` and of the parsed `driver_mb` is spelled out. -/
def rule1 (config : SparkConfig) : List Recommendation :=
  match config.driver_memory with
  | none => []
  | some s =>
    if s = "" then []
    else
      match parse_memory_mb s with
      | none => []
      | some mb => if mb ≠ 0 ∧ 10240 < mb then [driverMemoryRec s] else []

/-- Rule 2 of `_rule_based_analysis` (shuffle partitions).  The float test
`input_bytes / 1024**3 < 10` is exact for integers, hence rendered as the
integer inequality `input_bytes < 10 * 1024^3`. -/
def rule2 (config : SparkConfig) (metrics : Option ExecutionMetrics) : List Recommendation :=
  match config.shuffle_partitions with
  | none => []
  | some n =>
    if n ≠ 0 ∧ 200 < n then
      match metrics with
      | none => []
      | some m =>
        match m.input_bytes with
        | none => []
        | some b =>
          if b ≠ 0 then
            if b < 10 * 1024 ^ 3 then [shufflePartitionsRec n] else []
          else []
    else []

/-- Rule 3 of `_rule_based_analysis` (dynamic allocation). -/
def rule3 (config : SparkConfig) : List Recommendation :=
  if config.dynamic_allocation_enabled then [] else [dynamicAllocationRec]

/-- Rule 4 of `_rule_based_analysis` (memory spilling).  The comparison with
the float literal `0.1` is rendered as `10 * spilled > denom`; the double
nearest to 0.1 differs from 1/10 by under `6e-18` relatively, which no
integer inputs of realistic size can observe. -/
def rule4 (config : SparkConfig) (metrics : Option ExecutionMetrics) : List Recommendation :=
  match metrics with
  | none => []
  | some m =>
    match m.executor_memory_spilled with
    | none => []
    | some sp =>
      if sp ≠ 0 then
        let used : Int :=
          match m.executor_memory_used with
          | none => 1
          | some u => if u = 0 then 1 else u
        let denom := max used 1
        if denom < 10 * sp then [memorySpillRec (pyOrStr config.executor_memory "unknown")]
        else []
      else []

/-- `ConfigAnalyzer._rule_based_analysis`: the fixed rule battery, in source
order. -/
def rule_based_analysis (config : SparkConfig) (metrics : Option ExecutionMetrics) :
    List Recommendation :=
  rule1 config ++ rule2 config metrics ++ rule3 config ++ rule4 config metrics

/-- Python `str.replace` (all non-overlapping occurrences, left to right),
with fuel one unit per character. -/
def replaceSubAux (pat rep : List Char) : Nat → List Char → List Char
  | 0, s => s
  | _ + 1, [] => []
  | fuel + 1, c :: t =>
    if pat.isPrefixOf (c :: t) then rep ++ replaceSubAux pat rep fuel ((c :: t).drop pat.length)
    else c :: replaceSubAux pat rep fuel t

/-- Python `s.replace(pat, rep)` for a nonempty pattern. -/
def replaceSubL (pat rep s : List Char) : List Char := replaceSubAux pat rep s.length s

/-- The severity-tag dispatch of `_parse_openai_response`. -/
def tagSeverity (line : List Char) : Option RecommendationSeverity :=
  if "[CRITICAL]".data.isPrefixOf line then some .critical
  else if "[WARNING]".data.isPrefixOf line then some .warning
  else if "[INFO]".data.isPrefixOf line then some .info
  else none

/-- `part.split(':', 1)[1].strip()` (the guarding branches ensure a colon is
present). -/
def afterColonStrip (p : List Char) : String := String.mk (pyStripL (afterCharL ':' p))

/-- The `for part in parts[2:]` scan of `_parse_openai_response`:
case-insensitive prefix dispatch into (current, recommended, impact). -/
def scanFieldsStep (st : Option String × Option String × Option String) (part : List Char) :
    Option String × Option String × Option String :=
  let p := pyStripL part
  let pl := p.map Char.toLower
  if "current:".data.isPrefixOf pl then (some (afterColonStrip p), st.2.1, st.2.2)
  else if "recommended:".data.isPrefixOf pl then (st.1, some (afterColonStrip p), st.2.2)
  else if "impact:".data.isPrefixOf pl then (st.1, st.2.1, some (afterColonStrip p))
  else st

/-- The list of marker words scanned by the summary guard. -/
def summaryMarkers : List (List Char) :=
  ["CRITICAL".data, "WARNING".data, "INFO".data, "SUGGESTION".data]

/-- One loop iteration of `_parse_openai_response` over a (raw) response
line, threading the `(summary, recommendations)` state.  The nested `if` of
the source is rendered so that a line passing the outer summary guard but
failing the inner one falls through to severity parsing, exactly as the
missing `continue` makes it do. -/
def respLineStep (st : String × List Recommendation) (rawLine : List Char) :
    String × List Recommendation :=
  let line := pyStripL rawLine
  let summary := st.1
  let recs := st.2
  let up := pyUpperL line
  let cond1 := containsSubL "SUMMARY".data up ||
    (summary = "" && !line.isEmpty && line.head? ≠ some '[' && line.head? ≠ some '#')
  let cond2 := summary = "" && !line.isEmpty &&
    !(summaryMarkers.any (fun m => containsSubL m up))
  if cond1 && cond2 then
    (String.mk (pyStripL (replaceSubL "SUMMARY:".data []
        (replaceSubL "**SUMMARY**:".data [] line))), recs)
  else
    match tagSeverity line with
    | none => (summary, recs)
    | some sev =>
      match splitCharL '|' line with
      | p0 :: p1 :: rest =>
        let category_part : String :=
          if p0.any (fun c => c = ']') then String.mk (pyStripL (afterCharL ']' p0))
          else "general"
        let title := String.mk (pyStripL p1)
        let fields := rest.foldl scanFieldsStep (none, none, none)
        let impact := fields.2.2
        let rec1 : Recommendation :=
          { severity := sev
            category := String.mk ((pyLower category_part).data.map
              (fun c => if c = ' ' then '_' else c))
            title := title
            description := title ++ ". " ++ pyOrStr impact ""
            current_value := fields.1
            recommended_value := fields.2.1
            expected_impact := impact }
        (summary, recs ++ [rec1])
      | _ => (summary, recs)

/-- `ConfigAnalyzer._parse_openai_response`: line loop plus the final
summary fallback. -/
def parse_openai_response (response_text : String) : String × List Recommendation :=
  let st := (splitCharL '\n' response_text.data).foldl respLineStep ("", [])
  (if st.1 = "" then "Configuration analyzed. See recommendations below." else st.1, st.2)

/-- `ConfigAnalyzer.analyze`.  The external generative call is the only part
abstracted: `stageB = none` models `self.client is None`, `some (.error ())`
a raised exception inside the `try`, and `some (.ok text)` a successful call
whose message content is `text`.  `now` stands for
`datetime.now().isoformat()`. -/
def analyze (config : SparkConfig) (metrics : Option ExecutionMetrics)
    (stageB : Option (Except Unit String)) (now : String) : AnalysisResult :=
  let result : AnalysisResult :=
    { config := config, metrics := metrics, analyzed_at := some now
      recommendations := rule_based_analysis config metrics }
  match stageB with
  | none =>
    { result with
      summary := "Configuration analyzed using rule-based system. Set OPENAI_API_KEY for AI-powered insights." }
  | some (.error _) =>
    { result with summary := "Configuration analyzed using rule-based system." }
  | some (.ok text) =>
    let parsed := parse_openai_response text
    { result with
      summary := parsed.1
      recommendations := result.recommendations ++ parsed.2 }

/-! ### Theorems -/

/-! #### C3: missing files parse to the fresh default record -/

/-- Claim C3: for every path that does not name an existing file, parsing via
the dispatcher or either dialect sub-parser succeeds and returns the record
with only the source identifier set: every typed field at its default and an
empty `raw_settings` map. -/
theorem missing_file_yields_default (fs : String → Option String) (path s : String)
    (h : fs path = none) :
    parse_file fs path = .ok (SparkConfig.init path)
    ∧ parse_spark_defaults fs path = .ok (SparkConfig.init path)
    ∧ parse_spark_submit_script fs path = .ok (SparkConfig.init path)
    ∧ (SparkConfig.init path).source_file = path
    ∧ (SparkConfig.init path).raw_configs s = none
    ∧ (SparkConfig.init path).driver_memory = none
    ∧ (SparkConfig.init path).executor_memory = none
    ∧ (SparkConfig.init path).executor_cores = none
    ∧ (SparkConfig.init path).num_executors = none
    ∧ (SparkConfig.init path).default_parallelism = none
    ∧ (SparkConfig.init path).shuffle_partitions = none
    ∧ (SparkConfig.init path).dynamic_allocation_enabled = false
    ∧ (SparkConfig.init path).app_name = none
    ∧ (SparkConfig.init path).deploy_mode = none
    ∧ (SparkConfig.init path).master = none := by
  have hd : parse_spark_defaults fs path = .ok (SparkConfig.init path) := by
    simp [parse_spark_defaults, h]
  have hs : parse_spark_submit_script fs path = .ok (SparkConfig.init path) := by
    simp [parse_spark_submit_script, h]
  refine ⟨?_, hd, hs, rfl, rfl, rfl, rfl, rfl, rfl, rfl, rfl, rfl, rfl, rfl, rfl⟩
  unfold parse_file
  split_ifs <;> simp [h, hd, hs]

/-- A filesystem with no files at all, for the C3 witness. -/
def fsEmpty : String → Option String := fun _ => none

/-- Witness for C3 at a concrete missing path. -/
theorem missing_file_yields_default_witness :
    parse_file fsEmpty "conf/app.properties" = .ok (SparkConfig.init "conf/app.properties")
    ∧ parse_spark_defaults fsEmpty "conf/app.properties" = .ok (SparkConfig.init "conf/app.properties")
    ∧ parse_spark_submit_script fsEmpty "conf/app.properties" = .ok (SparkConfig.init "conf/app.properties")
    ∧ (SparkConfig.init "conf/app.properties").source_file = "conf/app.properties"
    ∧ (SparkConfig.init "conf/app.properties").raw_configs "spark.driver.memory" = none
    ∧ (SparkConfig.init "conf/app.properties").driver_memory = none
    ∧ (SparkConfig.init "conf/app.properties").executor_memory = none
    ∧ (SparkConfig.init "conf/app.properties").executor_cores = none
    ∧ (SparkConfig.init "conf/app.properties").num_executors = none
    ∧ (SparkConfig.init "conf/app.properties").default_parallelism = none
    ∧ (SparkConfig.init "conf/app.properties").shuffle_partitions = none
    ∧ (SparkConfig.init "conf/app.properties").dynamic_allocation_enabled = false
    ∧ (SparkConfig.init "conf/app.properties").app_name = none
    ∧ (SparkConfig.init "conf/app.properties").deploy_mode = none
    ∧ (SparkConfig.init "conf/app.properties").master = none :=
  missing_file_yields_default fsEmpty "conf/app.properties" "spark.driver.memory" rfl

/-! #### C2: the rule engine's memory parser -/

/-- The ten ASCII digit characters. -/
def digitChars : List Char := ['0', '1', '2', '3', '4', '5', '6', '7', '8', '9']

theorem digitChar_toLower {c : Char} (h : c ∈ digitChars) : Char.toLower c = c := by
  simp [digitChars] at h
  rcases h with h | h | h | h | h | h | h | h | h | h <;> subst h <;> decide

theorem digitChar_isDigit {c : Char} (h : c ∈ digitChars) : Char.isDigit c = true := by
  simp [digitChars] at h
  rcases h with h | h | h | h | h | h | h | h | h | h <;> subst h <;> decide

theorem map_toLower_digits {ds : List Char} (h : ∀ c ∈ ds, c ∈ digitChars) :
    ds.map Char.toLower = ds := by
  induction ds with
  | nil => rfl
  | cons c t ih =>
    simp only [List.map_cons]
    rw [digitChar_toLower (h c (by simp)), ih (fun x hx => h x (by simp [hx]))]

theorem takeWhile_all_append (p : Char → Bool) (ds rest : List Char)
    (h : ∀ c ∈ ds, p c = true) :
    (ds ++ rest).takeWhile p = ds ++ rest.takeWhile p := by
  induction ds with
  | nil => rfl
  | cons c t ih =>
    simp only [List.cons_append, List.takeWhile_cons, h c (by simp)]
    simp [ih (fun x hx => h x (by simp [hx]))]

/-- Evaluation of `parse_memory_mb` on a digit run followed by one unit
character from `kmgt`. -/
theorem parse_memory_mb_digits_unit (ds : List Char) (u : Char)
    (hne : ds ≠ []) (hds : ∀ c ∈ ds, c ∈ digitChars)
    (hu : Char.toLower u = u) (hud : Char.isDigit u = false)
    (huk : (u = 'k' ∨ u = 'm' ∨ u = 'g' ∨ u = 't') = True) :
    parse_memory_mb (String.mk (ds ++ [u])) = some (digitsToNat ds * memMultiplier (some u)) := by
  have hdig : ∀ c ∈ ds, Char.isDigit c = true := fun c hc => digitChar_isDigit (hds c hc)
  unfold parse_memory_mb
  simp only []
  rw [List.map_append, map_toLower_digits hds]
  simp only [List.map_cons, List.map_nil, hu]
  rw [takeWhile_all_append _ _ _ hdig]
  simp only [List.takeWhile_cons, hud, Bool.false_eq_true, if_false, List.takeWhile_nil,
    List.append_nil]
  rw [if_neg (by simpa using hne)]
  rw [List.drop_left]
  simp [huk]

/-- Evaluation of `parse_memory_mb` on a bare digit run. -/
theorem parse_memory_mb_digits (ds : List Char)
    (hne : ds ≠ []) (hds : ∀ c ∈ ds, c ∈ digitChars) :
    parse_memory_mb (String.mk ds) = some (digitsToNat ds * memMultiplier none) := by
  have hdig : ∀ c ∈ ds, Char.isDigit c = true := fun c hc => digitChar_isDigit (hds c hc)
  unfold parse_memory_mb
  simp only []
  rw [map_toLower_digits hds]
  rw [List.takeWhile_eq_self_iff.mpr hdig]
  rw [if_neg (by simpa using hne)]
  simp [memMultiplier]

/-- Claim C2 counterexample: the memory parser the rule engine calls maps
`"1024k"` to `1024` MB, not to `1024 * 1/1024 = 1` MB as claimed for the `k`
unit. -/
theorem memory_parser_k_counterexample :
    parse_memory_mb "1024k" = some 1024 ∧ (1024 : Nat) ≠ 1024 * 1 / 1024 := by
  exact ⟨rfl, by decide⟩

/-- Claim C2 (amended): for every valid memory string `<n><unit>`, the
memory-size parser used by the rule engine (`_parse_memory_mb`) returns
`n * 1`, `n * 1`, `n * 1024`, `n * 1024*1024` and `n * 1` megabytes for the
units `k`, `m`, `g`, `t` and the empty unit respectively (the `k` case scales
by 1, not by 1/1024), and for a fixed unit the result is monotonic in `n`. -/
theorem memory_parser_units_monotone :
    (∀ ds : List Char, ds ≠ [] → (∀ c ∈ ds, c ∈ digitChars) →
      parse_memory_mb (String.mk (ds ++ ['k'])) = some (digitsToNat ds * 1)
      ∧ parse_memory_mb (String.mk (ds ++ ['m'])) = some (digitsToNat ds * 1)
      ∧ parse_memory_mb (String.mk (ds ++ ['g'])) = some (digitsToNat ds * 1024)
      ∧ parse_memory_mb (String.mk (ds ++ ['t'])) = some (digitsToNat ds * (1024 * 1024))
      ∧ parse_memory_mb (String.mk ds) = some (digitsToNat ds * 1))
    ∧ (∀ (u : Option Char) (n₁ n₂ : Nat), n₁ ≤ n₂ →
        n₁ * memMultiplier u ≤ n₂ * memMultiplier u) := by
  constructor
  · intro ds hne hds
    refine ⟨?_, ?_, ?_, ?_, ?_⟩
    · simpa [memMultiplier] using
        parse_memory_mb_digits_unit ds 'k' hne hds (by decide) (by decide) (by simp)
    · simpa [memMultiplier] using
        parse_memory_mb_digits_unit ds 'm' hne hds (by decide) (by decide) (by simp)
    · simpa [memMultiplier] using
        parse_memory_mb_digits_unit ds 'g' hne hds (by decide) (by decide) (by simp)
    · simpa [memMultiplier] using
        parse_memory_mb_digits_unit ds 't' hne hds (by decide) (by decide) (by simp)
    · simpa [memMultiplier] using parse_memory_mb_digits ds hne hds
  · intro u n₁ n₂ h
    exact Nat.mul_le_mul_right _ h

/-- Witness for the amended C2 at the concrete count 20 and the unit pair
`g` / `none`, plus monotonicity at `3 ≤ 5`. -/
theorem memory_parser_units_monotone_witness :
    (parse_memory_mb "20g" = some (digitsToNat ['2', '0'] * 1024)
      ∧ 3 * memMultiplier (some 'g') ≤ 5 * memMultiplier (some 'g')) :=
  ⟨(memory_parser_units_monotone.1 ['2', '0'] (by decide) (by decide)).2.2.1,
    memory_parser_units_monotone.2 (some 'g') 3 5 (by decide)⟩

/-! #### C5: the excessive-driver-memory rule -/

theorem parse_memory_mb_ne_empty {s : String} {mb : Nat} (h : parse_memory_mb s = some mb) :
    s ≠ "" := by
  intro he
  subst he
  simp [parse_memory_mb] at h

/-- The settings file of scenario 1: only `spark.driver.memory=20g`. -/
def fsScenario1 : String → Option String :=
  fun p => if p = "spark-defaults.conf" then some "spark.driver.memory=20g" else none

/-- The record scenario 1 parses to. -/
def cfgScenario1 : SparkConfig :=
  { source_file := "spark-defaults.conf"
    driver_memory := some "20g"
    raw_configs := rawUpdate (fun _ => none) "spark.driver.memory" "20g" }

/-- Claim C5: whenever `driver_memory` parses to strictly more than 10240 MB,
Stage A emits the critical `resource_allocation` recommendation with
recommended value `"2g-4g"`; and the scenario-1 file parses to
`driver_memory = "20g"` and fires that recommendation. -/
theorem driver_memory_rule_fires :
    (∀ (config : SparkConfig) (metrics : Option ExecutionMetrics) (s : String) (mb : Nat),
      config.driver_memory = some s → parse_memory_mb s = some mb → 10240 < mb →
      driverMemoryRec s ∈ rule_based_analysis config metrics
      ∧ (driverMemoryRec s).severity = .critical
      ∧ (driverMemoryRec s).category = "resource_allocation"
      ∧ (driverMemoryRec s).recommended_value = some "2g-4g")
    ∧ parse_spark_defaults fsScenario1 "spark-defaults.conf" = .ok cfgScenario1
    ∧ cfgScenario1.driver_memory = some "20g"
    ∧ driverMemoryRec "20g" ∈ rule_based_analysis cfgScenario1 none := by
  refine ⟨?_, rfl, rfl, ?_⟩
  · intro config metrics s mb hdm hmb hgt
    refine ⟨?_, rfl, rfl, rfl⟩
    have hs : ¬(s = "") := parse_memory_mb_ne_empty hmb
    have h1 : rule1 config = [driverMemoryRec s] := by
      simp only [rule1, hdm, hmb]
      rw [if_neg hs]
      rw [if_pos ⟨by omega, hgt⟩]
    rw [rule_based_analysis, h1]
    simp
  · have h1 : rule1 cfgScenario1 = [driverMemoryRec "20g"] := by decide
    rw [rule_based_analysis, h1]
    simp

/-- Witness for C5: the general rule instantiated at the scenario-1 record
(`"20g"` parses to 20480 MB > 10240 MB). -/
theorem driver_memory_rule_fires_witness :
    driverMemoryRec "20g" ∈ rule_based_analysis cfgScenario1 none
    ∧ (driverMemoryRec "20g").severity = .critical
    ∧ (driverMemoryRec "20g").category = "resource_allocation"
    ∧ (driverMemoryRec "20g").recommended_value = some "2g-4g" :=
  driver_memory_rule_fires.1 cfgScenario1 none "20g" 20480 rfl rfl (by decide)

/-! #### C6: the shuffle-partition rule -/

theorem rule1_title {config : SparkConfig} {r : Recommendation} (h : r ∈ rule1 config) :
    r.title = "Excessive Driver Memory" := by
  unfold rule1 at h
  repeat' split at h
  all_goals simp_all [driverMemoryRec]

theorem rule3_title {config : SparkConfig} {r : Recommendation} (h : r ∈ rule3 config) :
    r.title = "Enable Dynamic Allocation" := by
  unfold rule3 at h
  split at h
  all_goals simp_all [dynamicAllocationRec]

theorem rule4_title {config : SparkConfig} {metrics : Option ExecutionMetrics}
    {r : Recommendation} (h : r ∈ rule4 config metrics) :
    r.title = "High Memory Spilling" := by
  unfold rule4 at h
  repeat' split at h
  all_goals simp_all [memorySpillRec]

theorem rule2_mem {config : SparkConfig} {m : ExecutionMetrics} {r : Recommendation}
    (h : r ∈ rule2 config (some m)) :
    (∃ n, config.shuffle_partitions = some n ∧ 200 < n ∧ r = shufflePartitionsRec n)
    ∧ (∃ b, m.input_bytes = some b ∧ b ≠ 0 ∧ b < 10 * 1024 ^ 3) := by
  unfold rule2 at h
  cases hsp : config.shuffle_partitions with
  | none => simp only [hsp] at h; simp at h
  | some n =>
    simp only [hsp] at h
    by_cases hn : n ≠ 0 ∧ 200 < n
    · rw [if_pos hn] at h
      cases hb : m.input_bytes with
      | none => simp only [hb] at h; simp at h
      | some b =>
        simp only [hb] at h
        by_cases hb0 : b ≠ 0
        · rw [if_pos hb0] at h
          by_cases hlt : b < 10 * 1024 ^ 3
          · rw [if_pos hlt] at h
            simp at h
            exact ⟨⟨n, rfl, hn.2, h⟩, ⟨b, rfl, hb0, hlt⟩⟩
          · rw [if_neg hlt] at h; simp at h
        · rw [if_neg hb0] at h; simp at h
    · rw [if_neg hn] at h; simp at h

theorem rule2_fires {config : SparkConfig} {m : ExecutionMetrics} {n b : Int}
    (hsp : config.shuffle_partitions = some n) (hn : 200 < n)
    (hb : m.input_bytes = some b) (hb0 : b ≠ 0) (hlt : b < 10 * 1024 ^ 3) :
    rule2 config (some m) = [shufflePartitionsRec n] := by
  simp only [rule2, hsp, hb]
  rw [if_pos (show n ≠ 0 ∧ 200 < n from ⟨by omega, hn⟩), if_pos hb0, if_pos hlt]

/-- Claim C6 (amended): the shuffle-partition warning (severity `warning`,
category `performance_tuning`, recommended value `"50-100"`) is emitted
exactly when `shuffle_partitions` is present and greater than 200 and the
supplied metrics record's `input_bytes` is present, nonzero (Python
truthiness: a zero byte count is falsy and skips the rule) and below
`10 * 1024^3` bytes. -/
theorem shuffle_rule_iff (config : SparkConfig) (m : ExecutionMetrics) :
    (∃ r ∈ rule_based_analysis config (some m),
        r.severity = .warning ∧ r.category = "performance_tuning"
        ∧ r.title = "Inefficient Shuffle Partitions" ∧ r.recommended_value = some "50-100")
    ↔ ((∃ n, config.shuffle_partitions = some n ∧ 200 < n)
        ∧ (∃ b, m.input_bytes = some b ∧ b ≠ 0 ∧ b < 10 * 1024 ^ 3)) := by
  constructor
  · rintro ⟨r, hr, hsev, hcat, htitle, hrec⟩
    rw [rule_based_analysis] at hr
    rcases List.mem_append.mp hr with hr' | hr4
    · rcases List.mem_append.mp hr' with hr'' | hr3
      · rcases List.mem_append.mp hr'' with hr1 | hr2
        · rw [rule1_title hr1] at htitle
          exact absurd htitle (by decide)
        · rcases rule2_mem hr2 with ⟨⟨n, hsp, hn, _⟩, hb⟩
          exact ⟨⟨n, hsp, hn⟩, hb⟩
      · rw [rule3_title hr3] at htitle
        exact absurd htitle (by decide)
    · rw [rule4_title hr4] at htitle
      exact absurd htitle (by decide)
  · rintro ⟨⟨n, hsp, hn⟩, ⟨b, hb, hb0, hlt⟩⟩
    refine ⟨shufflePartitionsRec n, ?_, rfl, rfl, rfl, rfl⟩
    rw [rule_based_analysis]
    have h2 := rule2_fires hsp hn hb hb0 hlt
    simp [h2]

/-- The configuration and metrics records of the C6 counterexample. -/
def cfgShuffle0 : SparkConfig := { source_file := "x", shuffle_partitions := some 500 }

/-- Metrics with a present but zero `input_bytes`, for the C6 counterexample. -/
def metricsZeroInput : ExecutionMetrics := { app_id := "a", app_name := "b", input_bytes := some 0 }

/-- Claim C6 counterexample: with `shuffle_partitions = 500` and a metrics
record whose `input_bytes` is present and equal to 0 (which converts to 0 GiB,
fewer than 10 GiB), the rule battery emits no shuffle-partition
recommendation, so the claimed "exactly when" condition is violated. -/
theorem shuffle_rule_zero_counterexample :
    cfgShuffle0.shuffle_partitions = some 500
    ∧ metricsZeroInput.input_bytes = some 0
    ∧ ((0 : Int) < 10 * 1024 ^ 3)
    ∧ (rule_based_analysis cfgShuffle0 (some metricsZeroInput)).all
        (fun r => r.title != "Inefficient Shuffle Partitions") = true := by
  exact ⟨rfl, rfl, by decide, by decide⟩

/-! #### C8: analysis result ordering and summary selection -/

/-- Claim C8: the result's recommendation sequence is always the Stage A rule
battery output followed by the Stage B parsed recommendations (empty when
Stage B did not run), in production order with no re-sorting; the summary is
Stage B's parsed summary on success, and otherwise one of the two fixed
fallback strings, selected only by why Stage B did not run. -/
theorem analyze_order_and_summary (config : SparkConfig) (metrics : Option ExecutionMetrics)
    (stageB : Option (Except Unit String)) (now : String) :
    (analyze config metrics stageB now).recommendations
      = rule_based_analysis config metrics
        ++ (match stageB with
            | some (.ok text) => (parse_openai_response text).2
            | _ => [])
    ∧ (analyze config metrics stageB now).summary
      = (match stageB with
          | some (.ok text) => (parse_openai_response text).1
          | some (.error _) => "Configuration analyzed using rule-based system."
          | none => "Configuration analyzed using rule-based system. Set OPENAI_API_KEY for AI-powered insights.")
    ∧ (analyze config metrics stageB now).config = config
    ∧ (analyze config metrics stageB now).metrics = metrics
    ∧ (analyze config metrics stageB now).analyzed_at = some now := by
  rcases stageB with _ | e
  · simp [analyze]
  · rcases e with e | text
    · simp [analyze]
    · simp [analyze]

/-! #### C9: the Stage-B response-line parser -/

theorem containsSubL_of_infix {m hay : List Char} (h : m <:+: hay) :
    containsSubL m hay = true := by
  induction hay with
  | nil =>
    rcases h with ⟨s, t, hst⟩
    simp only [List.append_eq_nil] at hst
    simp [containsSubL, hst.1.2]
  | cons c t ih =>
    rw [List.infix_cons_iff] at h
    rcases h with h | h
    · simp [containsSubL, List.isPrefixOf_iff_prefix.mpr h]
    · simp [containsSubL, ih h]

/-- A tag-matched line always contains one of the summary marker words (the
tag itself carries it), so the summary guard never captures a tagged line. -/
theorem tagSeverity_marker {line : List Char} {sev : RecommendationSeverity}
    (h : tagSeverity line = some sev) :
    summaryMarkers.any (fun m => containsSubL m (pyUpperL line)) = true := by
  unfold tagSeverity at h
  split_ifs at h with h1 h2 h3
  · rcases List.isPrefixOf_iff_prefix.mp h1 with ⟨rest, hrest⟩
    refine List.any_eq_true.mpr ⟨"CRITICAL".data, by simp [summaryMarkers], ?_⟩
    refine containsSubL_of_infix ⟨['['], ']' :: List.map Char.toUpper rest, ?_⟩
    rw [pyUpperL, ← hrest, List.map_append]
    rfl
  · rcases List.isPrefixOf_iff_prefix.mp h2 with ⟨rest, hrest⟩
    refine List.any_eq_true.mpr ⟨"WARNING".data, by simp [summaryMarkers], ?_⟩
    refine containsSubL_of_infix ⟨['['], ']' :: List.map Char.toUpper rest, ?_⟩
    rw [pyUpperL, ← hrest, List.map_append]
    rfl
  · rcases List.isPrefixOf_iff_prefix.mp h3 with ⟨rest, hrest⟩
    refine List.any_eq_true.mpr ⟨"INFO".data, by simp [summaryMarkers], ?_⟩
    refine containsSubL_of_infix ⟨['['], ']' :: List.map Char.toUpper rest, ?_⟩
    rw [pyUpperL, ← hrest, List.map_append]
    rfl

theorem respLineStep_no_tag (st : String × List Recommendation) (l : List Char)
    (h : tagSeverity (pyStripL l) = none) :
    (respLineStep st l).2 = st.2 := by
  unfold respLineStep
  simp only [h]
  split <;> rfl

theorem respLineStep_tagged (st : String × List Recommendation) (l : List Char)
    (sev : RecommendationSeverity) (p0 p1 : List Char) (rest : List (List Char))
    (htag : tagSeverity (pyStripL l) = some sev)
    (hsplit : splitCharL '|' (pyStripL l) = p0 :: p1 :: rest) :
    (respLineStep st l).2 = st.2 ++
      [{ severity := sev
         category := String.mk ((pyLower (if p0.any (fun c => c = ']')
             then String.mk (pyStripL (afterCharL ']' p0)) else "general")).data.map
             (fun c => if c = ' ' then '_' else c))
         title := String.mk (pyStripL p1)
         description := String.mk (pyStripL p1) ++ ". "
           ++ pyOrStr (rest.foldl scanFieldsStep (none, none, none)).2.2 ""
         current_value := (rest.foldl scanFieldsStep (none, none, none)).1
         recommended_value := (rest.foldl scanFieldsStep (none, none, none)).2.1
         expected_impact := (rest.foldl scanFieldsStep (none, none, none)).2.2 }] := by
  have hmark := tagSeverity_marker htag
  unfold respLineStep
  simp only [hmark, Bool.not_true, Bool.and_false, Bool.false_and, if_false, htag, hsplit,
    Bool.false_eq_true]

/-- Claim C9 counterexample: on the tagged line `"[WARNING] | T"` segment 0
after the closing bracket is empty, and the parsed category is the empty
string, not the claimed default `"general"` (that default is only reachable
when segment 0 lacks a closing bracket, which a tag-matched line never does). -/
theorem response_line_empty_category_counterexample :
    (parse_openai_response "[WARNING] | T").2
      = [{ severity := .warning, category := "", title := "T", description := "T. ",
           current_value := none, recommended_value := none, expected_impact := none }]
    ∧ ("" : String) ≠ "general" := by
  exact ⟨by decide, by decide⟩

/-- Claim C9 (amended): lines matching no severity tag never contribute a
recommendation (and the scan is total, so nothing is raised); every
tag-matched line with at least two `|` segments appends exactly one
recommendation whose severity matches the tag, whose category is segment 0
after the closing bracket lower-cased with spaces replaced by underscores
(the `"general"` default applies only when segment 0 has no closing bracket,
which cannot occur on a tag-matched line; an empty category stays empty),
whose title is segment 1 stripped, and whose current/recommended/impact
fields come from the case-insensitive prefix scan of the later segments; the
scenario line parses to the expected `warning` recommendation. -/
theorem response_line_parsing :
    (∀ (st : String × List Recommendation) (l : List Char),
      tagSeverity (pyStripL l) = none → (respLineStep st l).2 = st.2)
    ∧ (∀ (st : String × List Recommendation) (l : List Char)
        (sev : RecommendationSeverity) (p0 p1 : List Char) (rest : List (List Char)),
        tagSeverity (pyStripL l) = some sev →
        splitCharL '|' (pyStripL l) = p0 :: p1 :: rest →
        (respLineStep st l).2 = st.2 ++
          [{ severity := sev
             category := String.mk ((pyLower (if p0.any (fun c => c = ']')
                 then String.mk (pyStripL (afterCharL ']' p0)) else "general")).data.map
                 (fun c => if c = ' ' then '_' else c))
             title := String.mk (pyStripL p1)
             description := String.mk (pyStripL p1) ++ ". "
               ++ pyOrStr (rest.foldl scanFieldsStep (none, none, none)).2.2 ""
             current_value := (rest.foldl scanFieldsStep (none, none, none)).1
             recommended_value := (rest.foldl scanFieldsStep (none, none, none)).2.1
             expected_impact := (rest.foldl scanFieldsStep (none, none, none)).2.2 }])
    ∧ (parse_openai_response "[WARNING] performance_tuning | Too many partitions | Current: 500 | Recommended: 100 | Impact: faster shuffles").2
      = [{ severity := .warning, category := "performance_tuning",
           title := "Too many partitions",
           description := "Too many partitions. faster shuffles",
           current_value := some "500", recommended_value := some "100",
           expected_impact := some "faster shuffles" }] := by
  exact ⟨respLineStep_no_tag, respLineStep_tagged, by decide⟩

/-- Witness for the amended C9: a non-tag line contributes nothing, and a
concrete tagged line appends the recommendation computed from its segments. -/
theorem response_line_parsing_witness :
    (respLineStep ("", []) "hello world".data).2 = ([] : List Recommendation)
    ∧ (respLineStep ("s", []) "[INFO] cat | T".data).2 = [] ++
      [{ severity := .info
         category := String.mk ((pyLower (if "[INFO] cat ".data.any (fun c => c = ']')
             then String.mk (pyStripL (afterCharL ']' "[INFO] cat ".data)) else "general")).data.map
             (fun c => if c = ' ' then '_' else c))
         title := String.mk (pyStripL " T".data)
         description := String.mk (pyStripL " T".data) ++ ". "
           ++ pyOrStr (([] : List (List Char)).foldl scanFieldsStep (none, none, none)).2.2 ""
         current_value := (([] : List (List Char)).foldl scanFieldsStep (none, none, none)).1
         recommended_value := (([] : List (List Char)).foldl scanFieldsStep (none, none, none)).2.1
         expected_impact := (([] : List (List Char)).foldl scanFieldsStep (none, none, none)).2.2 }] :=
  ⟨response_line_parsing.1 ("", []) "hello world".data (by decide),
   response_line_parsing.2.1 ("s", []) "[INFO] cat | T".data .info
     "[INFO] cat ".data " T".data [] (by decide) (by decide)⟩

/-! #### C7: continuation joining -/

/-- The accumulated continuation join: fold `joinStep` over the continued
lines, finishing with the terminating line. -/
def contJoinAcc (acc : List Char) : List (List Char) → List Char → List Char
  | [], last => joinStep acc last
  | l :: rest, last => contJoinAcc (joinStep acc l) rest last

/-- The single logical line a fully backslash-continued block reconstructs
into. -/
def contJoin : List (List Char) → List Char → List Char
  | [], last => last
  | l :: rest, last => contJoinAcc l rest last

theorem endsBS_iff {l : List Char} : endsBS l = true ↔ l.getLast? = some '\\' := by
  simp [endsBS]

theorem getLast?_cons_ne {c : Char} {t : List Char} (ht : t ≠ []) :
    (c :: t).getLast? = t.getLast? := by
  cases t with
  | nil => exact absurd rfl ht
  | cons b u => exact List.getLast?_cons_cons

theorem dropWhile_endsBS {l : List Char} (h : endsBS l = true) :
    endsBS (l.dropWhile isWs) = true ∧ l.dropWhile isWs ≠ [] := by
  induction l with
  | nil => simp [endsBS] at h
  | cons c t ih =>
    by_cases hw : isWs c = true
    · have ht : t ≠ [] := by
        rintro rfl
        rw [endsBS_iff, List.getLast?_singleton] at h
        have : c = '\\' := by simpa using h
        subst this
        simp [isWs, Char.isWhitespace] at hw
      have h' : endsBS t = true := by
        rw [endsBS_iff] at h ⊢
        rwa [getLast?_cons_ne ht] at h
      rw [List.dropWhile_cons_of_pos hw]
      exact ih h'
    · rw [List.dropWhile_cons_of_neg hw]
      exact ⟨h, by simp⟩

theorem pyStripL_endsBS {l : List Char} (h : endsBS l = true) :
    endsBS (pyStripL l) = true ∧ pyStripL l ≠ [] := by
  obtain ⟨h1, h1ne⟩ := dropWhile_endsBS h
  rw [pyStripL]
  have hhead : ((l.dropWhile isWs).reverse).head? = some '\\' := by
    rw [List.head?_reverse]
    exact endsBS_iff.mp h1
  have hrev : (l.dropWhile isWs).reverse.dropWhile isWs = (l.dropWhile isWs).reverse := by
    cases hr : (l.dropWhile isWs).reverse with
    | nil => rfl
    | cons c t =>
      rw [hr] at hhead
      simp only [List.head?_cons, Option.some.injEq] at hhead
      subst hhead
      rw [List.dropWhile_cons_of_neg (by decide)]
  rw [hrev, List.reverse_reverse]
  exact ⟨h1, h1ne⟩

theorem joinStep_endsBS {acc nxt : List Char} (h : endsBS nxt = true) :
    endsBS (joinStep acc nxt) = true := by
  obtain ⟨h1, h1ne⟩ := pyStripL_endsBS h
  rw [endsBS_iff]
  unfold joinStep
  rw [List.getLast?_append_of_ne_nil _ (by simp)]
  rw [getLast?_cons_ne h1ne]
  exact endsBS_iff.mp h1

theorem joinGo_consumes (ls : List (List Char)) :
    ∀ (acc last : List Char), endsBS acc = true → (∀ l ∈ ls, endsBS l = true) →
    joinGo acc (ls ++ [last]) = [contJoinAcc acc ls last] := by
  induction ls with
  | nil =>
    intro acc last hacc _
    simp only [List.nil_append, joinGo, hacc, if_pos]
    rfl
  | cons l rest ih =>
    intro acc last hacc hall
    simp only [List.cons_append, joinGo, hacc, if_pos]
    exact ih (joinStep acc l) last (joinStep_endsBS (hall l (by simp)))
      (fun x hx => hall x (by simp [hx]))

/-- The deploy script of scenario 5: three physical lines joined by
continuations, with `--executor-cores` and its value split across a join
point. -/
def fsScenario5 : String → Option String :=
  fun p =>
    if p = "submit_job.sh"
    then some "spark-submit \\\n  --executor-cores \\\n  4 --num-executors 2"
    else none

/-- Claim C7: a block of `N` backslash-continued physical lines followed by a
terminating line reconstructs into exactly one logical line (each
continuation character stripped, a single space inserted between the stripped
pieces), for arbitrary `N`; and the scenario-5 three-line script still yields
`executor_cores = 4`. -/
theorem continuation_joining :
    (∀ (ls : List (List Char)) (last : List Char), ls ≠ [] →
      (∀ l ∈ ls, endsBS l = true) →
      joinLines (ls ++ [last]) = [contJoin ls last])
    ∧ (getOk (parse_spark_submit_script fsScenario5 "submit_job.sh")).map
        (fun c => c.executor_cores) = some (some 4) := by
  constructor
  · intro ls last hne hall
    cases ls with
    | nil => exact absurd rfl hne
    | cons l rest =>
      simp only [List.cons_append, joinLines]
      rw [joinGo_consumes rest l last (hall l (by simp)) (fun x hx => hall x (by simp [hx]))]
      rfl
  · decide

/-- Witness for C7: two continued lines plus a terminator join into the
single expected logical line. -/
theorem continuation_joining_witness :
    joinLines ([['a', '\\'], ['b', '\\']] ++ [['c', 'd']])
      = [contJoin [['a', '\\'], ['b', '\\']] ['c', 'd']] :=
  continuation_joining.1 [['a', '\\'], ['b', '\\']] ['c', 'd'] (by decide) (by decide)

/-! #### C4: unparsable integers for recognized settings -/

/-- The four settings the key/value dialect promotes through `int(...)`. -/
def intKeys : List String :=
  ["spark.executor.cores", "spark.executor.instances",
   "spark.default.parallelism", "spark.sql.shuffle.partitions"]

/-- A line that tokenises to a recognized integer setting whose value
`int(...)` rejects. -/
def badIntLine (rawLine : List Char) : Bool :=
  match lineKeyVal rawLine with
  | none => false
  | some kv => decide (kv.1 ∈ intKeys) && (pyIntS kv.2).isNone

theorem parseDefaultsLine_error_of_bad {l : List Char} (h : badIntLine l = true)
    (cfg : SparkConfig) : parseDefaultsLine cfg l = .error () := by
  unfold badIntLine at h
  unfold parseDefaultsLine
  cases hkv : lineKeyVal l with
  | none => rw [hkv] at h; simp at h
  | some kv =>
    rw [hkv] at h
    simp only [Bool.and_eq_true, decide_eq_true_eq, Option.isNone_iff_eq_none] at h
    obtain ⟨hmem, hnone⟩ := h
    simp only [intKeys, List.mem_cons, List.not_mem_nil, or_false] at hmem
    rcases hmem with hk | hk | hk | hk <;>
      simp [promoteKV, hk, hnone]

theorem foldDefaults_error {ls : List (List Char)} :
    ∀ cfg : SparkConfig, (∃ l ∈ ls, badIntLine l = true) →
    exceptOk (foldDefaultsLines cfg ls) = false := by
  induction ls with
  | nil => rintro cfg ⟨l, hl, _⟩; simp at hl
  | cons l ls ih =>
    rintro cfg ⟨x, hx, hbad⟩
    rcases List.mem_cons.mp hx with rfl | hx'
    · rw [foldDefaultsLines, parseDefaultsLine_error_of_bad hbad]
      rfl
    · rw [foldDefaultsLines]
      cases hp : parseDefaultsLine cfg l with
      | error e => rfl
      | ok cfg' => exact ih cfg' ⟨x, hx', hbad⟩

/-- Deploy script whose `--executor-cores` and `--num-executors` flags carry
non-numeric values. -/
def fsBadFlags : String → Option String :=
  fun p =>
    if p = "run.sh" then some "spark-submit --executor-cores abc --num-executors def"
    else none

/-- Deploy script whose `--conf` carries a non-numeric recognized integer
tunable. -/
def fsBadConf : String → Option String :=
  fun p =>
    if p = "run2.sh" then some "spark-submit --conf spark.sql.shuffle.partitions=abc"
    else none

/-- Claim C4 counterexample: in the deploy-script dialect a non-numeric value
after `--executor-cores` is not a parse error — the `(\d+)` pattern simply
fails to match, the call succeeds and the field stays unset. -/
theorem nonnumeric_cores_flag_no_error :
    exceptOk (parse_spark_submit_script fsBadFlags "run.sh") = true
    ∧ (getOk (parse_spark_submit_script fsBadFlags "run.sh")).map
        (fun c => c.executor_cores) = some none
    ∧ (getOk (parse_spark_submit_script fsBadFlags "run.sh")).map
        (fun c => c.num_executors) = some none := by
  exact ⟨by decide, by decide, by decide⟩

/-- Claim C4 (amended): in the key/value dialect a recognized integer setting
with an unparsable value is a parse error propagated to the caller, and the
same holds for the recognized integer `--conf` tunables of the deploy-script
dialect; the `--executor-cores` / `--num-executors` flags, however, only
match numeric values, so a non-numeric next token is silently ignored (no
error, field left unset) rather than rejected. -/
theorem int_coercion_failure_behaviour :
    (∀ (fs : String → Option String) (path text : String), fs path = some text →
      (∃ l ∈ pyLinesL text.data, badIntLine l = true) →
      exceptOk (parse_spark_defaults fs path) = false)
    ∧ parse_spark_submit_script fsBadFlags "run.sh" = .ok (SparkConfig.init "run.sh")
    ∧ (SparkConfig.init "run.sh").executor_cores = none
    ∧ exceptOk (parse_spark_submit_script fsBadConf "run2.sh") = false := by
  refine ⟨?_, by rfl, rfl, by decide⟩
  intro fs path text hfs hbad
  rw [parse_spark_defaults, hfs]
  exact foldDefaults_error _ hbad

/-- Witness for the amended C4: a concrete defaults file with
`spark.executor.cores=abc` is rejected. -/
def fsBadCores : String → Option String := fun _ => some "spark.executor.cores=abc"

/-- Witness theorem for the amended C4. -/
theorem int_coercion_failure_behaviour_witness :
    exceptOk (parse_spark_defaults fsBadCores "conf") = false :=
  int_coercion_failure_behaviour.1 fsBadCores "conf" "spark.executor.cores=abc" rfl (by decide)

/-! #### C10: last occurrence wins in the key/value dialect -/

theorem rawUpdate_self (m : String → Option String) (k v : String) :
    rawUpdate m k v k = some v := by simp [rawUpdate]

theorem rawUpdate_ne (m : String → Option String) {k k' : String} (v : String)
    (h : k' ≠ k) : rawUpdate m k v k' = m k' := by simp [rawUpdate, h]

theorem promoteKV_preserve {cfg c' : SparkConfig} {k v : String}
    (h : promoteKV cfg k v = .ok c') :
    c'.raw_configs = cfg.raw_configs ∧ c'.source_file = cfg.source_file
    ∧ c'.deploy_mode = cfg.deploy_mode ∧ c'.master = cfg.master
    ∧ (k ≠ "spark.driver.memory" → c'.driver_memory = cfg.driver_memory)
    ∧ (k ≠ "spark.executor.memory" → c'.executor_memory = cfg.executor_memory)
    ∧ (k ≠ "spark.executor.cores" → c'.executor_cores = cfg.executor_cores)
    ∧ (k ≠ "spark.executor.instances" → c'.num_executors = cfg.num_executors)
    ∧ (k ≠ "spark.default.parallelism" → c'.default_parallelism = cfg.default_parallelism)
    ∧ (k ≠ "spark.sql.shuffle.partitions" → c'.shuffle_partitions = cfg.shuffle_partitions)
    ∧ (k ≠ "spark.dynamicAllocation.enabled" →
        c'.dynamic_allocation_enabled = cfg.dynamic_allocation_enabled)
    ∧ (k ≠ "spark.app.name" → c'.app_name = cfg.app_name) := by
  unfold promoteKV at h
  split_ifs at h with h1 h2 h3 h4 h5 h6 h7 h8
  all_goals try split at h
  all_goals first
    | exact Except.noConfusion h
    | (injection h with h; subst h; simp_all)

theorem promoteKV_effect {cfg c' : SparkConfig} {k v : String}
    (h : promoteKV cfg k v = .ok c') :
    (k = "spark.driver.memory" → c'.driver_memory = some v)
    ∧ (k = "spark.executor.memory" → c'.executor_memory = some v)
    ∧ (k = "spark.executor.cores" → c'.executor_cores = pyIntS v)
    ∧ (k = "spark.executor.instances" → c'.num_executors = pyIntS v)
    ∧ (k = "spark.default.parallelism" → c'.default_parallelism = pyIntS v)
    ∧ (k = "spark.sql.shuffle.partitions" → c'.shuffle_partitions = pyIntS v)
    ∧ (k = "spark.dynamicAllocation.enabled" →
        c'.dynamic_allocation_enabled = decide (pyLower v = "true"))
    ∧ (k = "spark.app.name" → c'.app_name = some v) := by
  unfold promoteKV at h
  split_ifs at h with h1 h2 h3 h4 h5 h6 h7 h8
  all_goals try split at h
  all_goals first
    | exact Except.noConfusion h
    | (injection h with h; subst h; simp_all)

theorem parseDefaultsLine_skip {cfg : SparkConfig} {l : List Char}
    (h : lineKeyVal l = none) : parseDefaultsLine cfg l = .ok cfg := by
  simp [parseDefaultsLine, h]

theorem parseDefaultsLine_effect {cfg c' : SparkConfig} {l : List Char} {k v : String}
    (hkv : lineKeyVal l = some (k, v)) (h : parseDefaultsLine cfg l = .ok c') :
    c'.raw_configs k = some v
    ∧ (k = "spark.driver.memory" → c'.driver_memory = some v)
    ∧ (k = "spark.executor.memory" → c'.executor_memory = some v)
    ∧ (k = "spark.executor.cores" → c'.executor_cores = pyIntS v)
    ∧ (k = "spark.executor.instances" → c'.num_executors = pyIntS v)
    ∧ (k = "spark.default.parallelism" → c'.default_parallelism = pyIntS v)
    ∧ (k = "spark.sql.shuffle.partitions" → c'.shuffle_partitions = pyIntS v)
    ∧ (k = "spark.dynamicAllocation.enabled" →
        c'.dynamic_allocation_enabled = decide (pyLower v = "true"))
    ∧ (k = "spark.app.name" → c'.app_name = some v) := by
  unfold parseDefaultsLine at h
  rw [hkv] at h
  have hraw := (promoteKV_preserve h).1
  have heff := promoteKV_effect h
  refine ⟨?_, heff.1, heff.2.1, heff.2.2.1, heff.2.2.2.1, heff.2.2.2.2.1,
    heff.2.2.2.2.2.1, heff.2.2.2.2.2.2.1, heff.2.2.2.2.2.2.2⟩
  rw [hraw]
  exact rawUpdate_self _ _ _

theorem parseDefaultsLine_preserve {cfg c' : SparkConfig} {l : List Char} {k : String}
    (hother : ∀ kv, lineKeyVal l = some kv → kv.1 ≠ k)
    (h : parseDefaultsLine cfg l = .ok c') :
    c'.raw_configs k = cfg.raw_configs k
    ∧ (k = "spark.driver.memory" → c'.driver_memory = cfg.driver_memory)
    ∧ (k = "spark.executor.memory" → c'.executor_memory = cfg.executor_memory)
    ∧ (k = "spark.executor.cores" → c'.executor_cores = cfg.executor_cores)
    ∧ (k = "spark.executor.instances" → c'.num_executors = cfg.num_executors)
    ∧ (k = "spark.default.parallelism" → c'.default_parallelism = cfg.default_parallelism)
    ∧ (k = "spark.sql.shuffle.partitions" → c'.shuffle_partitions = cfg.shuffle_partitions)
    ∧ (k = "spark.dynamicAllocation.enabled" →
        c'.dynamic_allocation_enabled = cfg.dynamic_allocation_enabled)
    ∧ (k = "spark.app.name" → c'.app_name = cfg.app_name) := by
  unfold parseDefaultsLine at h
  cases hkv : lineKeyVal l with
  | none =>
    rw [hkv] at h
    injection h with h
    subst h
    exact ⟨rfl, fun _ => rfl, fun _ => rfl, fun _ => rfl, fun _ => rfl, fun _ => rfl,
      fun _ => rfl, fun _ => rfl, fun _ => rfl⟩
  | some kv =>
    rw [hkv] at h
    have hne : kv.1 ≠ k := hother kv hkv
    have hpre := promoteKV_preserve h
    refine ⟨?_, ?_, ?_, ?_, ?_, ?_, ?_, ?_, ?_⟩
    · rw [hpre.1]
      exact rawUpdate_ne _ _ (Ne.symm hne)
    · intro hk; rw [hpre.2.2.2.2.1 (hk ▸ hne)]
    · intro hk; rw [hpre.2.2.2.2.2.1 (hk ▸ hne)]
    · intro hk; rw [hpre.2.2.2.2.2.2.1 (hk ▸ hne)]
    · intro hk; rw [hpre.2.2.2.2.2.2.2.1 (hk ▸ hne)]
    · intro hk; rw [hpre.2.2.2.2.2.2.2.2.1 (hk ▸ hne)]
    · intro hk; rw [hpre.2.2.2.2.2.2.2.2.2.1 (hk ▸ hne)]
    · intro hk; rw [hpre.2.2.2.2.2.2.2.2.2.2.1 (hk ▸ hne)]
    · intro hk; rw [hpre.2.2.2.2.2.2.2.2.2.2.2 (hk ▸ hne)]

theorem foldDefaults_append (xs ys : List (List Char)) (cfg : SparkConfig) :
    foldDefaultsLines cfg (xs ++ ys) =
      match foldDefaultsLines cfg xs with
      | .error e => .error e
      | .ok c => foldDefaultsLines c ys := by
  induction xs generalizing cfg with
  | nil => rfl
  | cons l ls ih =>
    simp only [List.cons_append, foldDefaultsLines]
    cases hp : parseDefaultsLine cfg l with
    | error e => rfl
    | ok c => exact ih c

theorem foldDefaults_preserve {k : String} (ls : List (List Char)) :
    ∀ (cfg c' : SparkConfig),
    (∀ l ∈ ls, ∀ kv, lineKeyVal l = some kv → kv.1 ≠ k) →
    foldDefaultsLines cfg ls = .ok c' →
    c'.raw_configs k = cfg.raw_configs k
    ∧ (k = "spark.driver.memory" → c'.driver_memory = cfg.driver_memory)
    ∧ (k = "spark.executor.memory" → c'.executor_memory = cfg.executor_memory)
    ∧ (k = "spark.executor.cores" → c'.executor_cores = cfg.executor_cores)
    ∧ (k = "spark.executor.instances" → c'.num_executors = cfg.num_executors)
    ∧ (k = "spark.default.parallelism" → c'.default_parallelism = cfg.default_parallelism)
    ∧ (k = "spark.sql.shuffle.partitions" → c'.shuffle_partitions = cfg.shuffle_partitions)
    ∧ (k = "spark.dynamicAllocation.enabled" →
        c'.dynamic_allocation_enabled = cfg.dynamic_allocation_enabled)
    ∧ (k = "spark.app.name" → c'.app_name = cfg.app_name) := by
  induction ls with
  | nil =>
    intro cfg c' _ h
    injection h with h
    subst h
    exact ⟨rfl, fun _ => rfl, fun _ => rfl, fun _ => rfl, fun _ => rfl, fun _ => rfl,
      fun _ => rfl, fun _ => rfl, fun _ => rfl⟩
  | cons l ls ih =>
    intro cfg c' hother h
    rw [foldDefaultsLines] at h
    cases hp : parseDefaultsLine cfg l with
    | error e => rw [hp] at h; exact Except.noConfusion h
    | ok c =>
      rw [hp] at h
      have hstep := parseDefaultsLine_preserve (hother l (by simp)) hp
      have hrest := ih c c' (fun x hx => hother x (by simp [hx])) h
      refine ⟨hrest.1.trans hstep.1, ?_, ?_, ?_, ?_, ?_, ?_, ?_, ?_⟩
      · intro hk; rw [hrest.2.1 hk, hstep.2.1 hk]
      · intro hk; rw [hrest.2.2.1 hk, hstep.2.2.1 hk]
      · intro hk; rw [hrest.2.2.2.1 hk, hstep.2.2.2.1 hk]
      · intro hk; rw [hrest.2.2.2.2.1 hk, hstep.2.2.2.2.1 hk]
      · intro hk; rw [hrest.2.2.2.2.2.1 hk, hstep.2.2.2.2.2.1 hk]
      · intro hk; rw [hrest.2.2.2.2.2.2.1 hk, hstep.2.2.2.2.2.2.1 hk]
      · intro hk; rw [hrest.2.2.2.2.2.2.2.1 hk, hstep.2.2.2.2.2.2.2.1 hk]
      · intro hk; rw [hrest.2.2.2.2.2.2.2.2 hk, hstep.2.2.2.2.2.2.2.2 hk]

/-- Claim C10: in the key/value dialect, when a well-formed line for setting
`k` is followed only by lines that do not tokenise to `k` again, the returned
record holds that line's value for `k`, both in `raw_settings` and — for a
recognized setting — in the promoted typed field: each later occurrence of a
setting overwrites the earlier one. -/
theorem last_occurrence_wins (fs : String → Option String) (path text : String)
    (pre post : List (List Char)) (l : List Char) (k v : String) (cfg : SparkConfig)
    (hfs : fs path = some text)
    (hlines : pyLinesL text.data = pre ++ l :: post)
    (hkv : lineKeyVal l = some (k, v))
    (hlast : ∀ l' ∈ post, ∀ kv', lineKeyVal l' = some kv' → kv'.1 ≠ k)
    (hok : parse_spark_defaults fs path = .ok cfg) :
    cfg.raw_configs k = some v
    ∧ (k = "spark.driver.memory" → cfg.driver_memory = some v)
    ∧ (k = "spark.executor.memory" → cfg.executor_memory = some v)
    ∧ (k = "spark.executor.cores" → cfg.executor_cores = pyIntS v)
    ∧ (k = "spark.executor.instances" → cfg.num_executors = pyIntS v)
    ∧ (k = "spark.default.parallelism" → cfg.default_parallelism = pyIntS v)
    ∧ (k = "spark.sql.shuffle.partitions" → cfg.shuffle_partitions = pyIntS v)
    ∧ (k = "spark.dynamicAllocation.enabled" →
        cfg.dynamic_allocation_enabled = decide (pyLower v = "true"))
    ∧ (k = "spark.app.name" → cfg.app_name = some v) := by
  unfold parse_spark_defaults at hok
  simp only [hfs] at hok
  rw [hlines, foldDefaults_append] at hok
  cases hmid : foldDefaultsLines (SparkConfig.init path) pre with
  | error e => rw [hmid] at hok; exact Except.noConfusion hok
  | ok cMid =>
    simp only [hmid, foldDefaultsLines] at hok
    cases hline : parseDefaultsLine cMid l with
    | error e => rw [hline] at hok; exact Except.noConfusion hok
    | ok cAfter =>
      rw [hline] at hok
      have heff := parseDefaultsLine_effect hkv hline
      have hpres := foldDefaults_preserve post cAfter cfg hlast hok
      refine ⟨hpres.1.trans heff.1, ?_, ?_, ?_, ?_, ?_, ?_, ?_, ?_⟩
      · intro hk; rw [hpres.2.1 hk, heff.2.1 hk]
      · intro hk; rw [hpres.2.2.1 hk, heff.2.2.1 hk]
      · intro hk; rw [hpres.2.2.2.1 hk, heff.2.2.2.1 hk]
      · intro hk; rw [hpres.2.2.2.2.1 hk, heff.2.2.2.2.1 hk]
      · intro hk; rw [hpres.2.2.2.2.2.1 hk, heff.2.2.2.2.2.1 hk]
      · intro hk; rw [hpres.2.2.2.2.2.2.1 hk, heff.2.2.2.2.2.2.1 hk]
      · intro hk; rw [hpres.2.2.2.2.2.2.2.1 hk, heff.2.2.2.2.2.2.2.1 hk]
      · intro hk; rw [hpres.2.2.2.2.2.2.2.2 hk, heff.2.2.2.2.2.2.2.2 hk]

/-- A defaults file that sets `spark.executor.cores` twice, for the C10
witness. -/
def fsDupKeys : String → Option String :=
  fun p =>
    if p = "spark-defaults.conf" then some "spark.executor.cores=3\nspark.executor.cores=7"
    else none

/-- The record the duplicate-key file parses to. -/
def cfgDupKeys : SparkConfig :=
  { source_file := "spark-defaults.conf"
    executor_cores := some 7
    raw_configs := rawUpdate (rawUpdate (fun _ => none) "spark.executor.cores" "3")
      "spark.executor.cores" "7" }

/-- Witness for C10: with `spark.executor.cores` set to 3 and then to 7, the
record holds `7`, in raw and typed form alike. -/
theorem last_occurrence_wins_witness :
    cfgDupKeys.raw_configs "spark.executor.cores" = some "7"
    ∧ cfgDupKeys.executor_cores = pyIntS "7" := by
  have h := last_occurrence_wins fsDupKeys "spark-defaults.conf"
    "spark.executor.cores=3\nspark.executor.cores=7"
    ["spark.executor.cores=3".data] [] "spark.executor.cores=7".data
    "spark.executor.cores" "7" cfgDupKeys
    rfl (by decide) (by decide) (by simp) (by rfl)
  exact ⟨h.1, h.2.2.2.1 rfl⟩

/-! #### C1: the raw-settings round-trip invariant -/

/-- The claimed invariant for the key/value dialect: every typed field that
is present also appears, in raw string form, in `raw_settings` under its
canonical setting name (integer fields through `int(...)`, the boolean
through the case-insensitive `"true"` test). -/
def kvInvariant (cfg : SparkConfig) : Prop :=
  (cfg.driver_memory ≠ none → cfg.raw_configs "spark.driver.memory" = cfg.driver_memory)
  ∧ (cfg.executor_memory ≠ none → cfg.raw_configs "spark.executor.memory" = cfg.executor_memory)
  ∧ (cfg.executor_cores ≠ none →
      (cfg.raw_configs "spark.executor.cores").bind pyIntS = cfg.executor_cores)
  ∧ (cfg.num_executors ≠ none →
      (cfg.raw_configs "spark.executor.instances").bind pyIntS = cfg.num_executors)
  ∧ (cfg.default_parallelism ≠ none →
      (cfg.raw_configs "spark.default.parallelism").bind pyIntS = cfg.default_parallelism)
  ∧ (cfg.shuffle_partitions ≠ none →
      (cfg.raw_configs "spark.sql.shuffle.partitions").bind pyIntS = cfg.shuffle_partitions)
  ∧ (cfg.dynamic_allocation_enabled = true →
      (cfg.raw_configs "spark.dynamicAllocation.enabled").map
        (fun s => decide (pyLower s = "true")) = some true)
  ∧ (cfg.app_name ≠ none → cfg.raw_configs "spark.app.name" = cfg.app_name)

/-- The part of the invariant the deploy-script dialect does satisfy: the
three settings promoted from `--conf` occurrences round-trip through
`raw_settings`. -/
def confInvariant (cfg : SparkConfig) : Prop :=
  (cfg.default_parallelism ≠ none →
      (cfg.raw_configs "spark.default.parallelism").bind pyIntS = cfg.default_parallelism)
  ∧ (cfg.shuffle_partitions ≠ none →
      (cfg.raw_configs "spark.sql.shuffle.partitions").bind pyIntS = cfg.shuffle_partitions)
  ∧ (cfg.dynamic_allocation_enabled = true →
      (cfg.raw_configs "spark.dynamicAllocation.enabled").map
        (fun s => decide (pyLower s = "true")) = some true)

theorem parseDefaultsLine_invariant {cfg c' : SparkConfig} {l : List Char}
    (h : parseDefaultsLine cfg l = .ok c') (hinv : kvInvariant cfg) : kvInvariant c' := by
  unfold parseDefaultsLine at h
  cases hkv : lineKeyVal l with
  | none =>
    rw [hkv] at h
    injection h with h
    subst h
    exact hinv
  | some kv =>
    rw [hkv] at h
    obtain ⟨k, v⟩ := kv
    have hpre := promoteKV_preserve h
    have heff := promoteKV_effect h
    have hraw : c'.raw_configs = rawUpdate cfg.raw_configs k v := hpre.1
    refine ⟨?_, ?_, ?_, ?_, ?_, ?_, ?_, ?_⟩
    · intro hne
      by_cases hk : k = "spark.driver.memory"
      · subst hk
        rw [heff.1 rfl, hraw, rawUpdate_self]
      · rw [hpre.2.2.2.2.1 hk, hraw, rawUpdate_ne _ _ (fun hh => hk hh.symm)]
        rw [hpre.2.2.2.2.1 hk] at hne
        exact hinv.1 hne
    · intro hne
      by_cases hk : k = "spark.executor.memory"
      · subst hk
        rw [heff.2.1 rfl, hraw, rawUpdate_self]
      · rw [hpre.2.2.2.2.2.1 hk, hraw, rawUpdate_ne _ _ (fun hh => hk hh.symm)]
        rw [hpre.2.2.2.2.2.1 hk] at hne
        exact hinv.2.1 hne
    · intro hne
      by_cases hk : k = "spark.executor.cores"
      · subst hk
        rw [heff.2.2.1 rfl, hraw, rawUpdate_self]
        rfl
      · rw [hpre.2.2.2.2.2.2.1 hk, hraw, rawUpdate_ne _ _ (fun hh => hk hh.symm)]
        rw [hpre.2.2.2.2.2.2.1 hk] at hne
        exact hinv.2.2.1 hne
    · intro hne
      by_cases hk : k = "spark.executor.instances"
      · subst hk
        rw [heff.2.2.2.1 rfl, hraw, rawUpdate_self]
        rfl
      · rw [hpre.2.2.2.2.2.2.2.1 hk, hraw, rawUpdate_ne _ _ (fun hh => hk hh.symm)]
        rw [hpre.2.2.2.2.2.2.2.1 hk] at hne
        exact hinv.2.2.2.1 hne
    · intro hne
      by_cases hk : k = "spark.default.parallelism"
      · subst hk
        rw [heff.2.2.2.2.1 rfl, hraw, rawUpdate_self]
        rfl
      · rw [hpre.2.2.2.2.2.2.2.2.1 hk, hraw, rawUpdate_ne _ _ (fun hh => hk hh.symm)]
        rw [hpre.2.2.2.2.2.2.2.2.1 hk] at hne
        exact hinv.2.2.2.2.1 hne
    · intro hne
      by_cases hk : k = "spark.sql.shuffle.partitions"
      · subst hk
        rw [heff.2.2.2.2.2.1 rfl, hraw, rawUpdate_self]
        rfl
      · rw [hpre.2.2.2.2.2.2.2.2.2.1 hk, hraw, rawUpdate_ne _ _ (fun hh => hk hh.symm)]
        rw [hpre.2.2.2.2.2.2.2.2.2.1 hk] at hne
        exact hinv.2.2.2.2.2.1 hne
    · intro hne
      by_cases hk : k = "spark.dynamicAllocation.enabled"
      · subst hk
        rw [heff.2.2.2.2.2.2.1 rfl] at hne
        rw [hraw, rawUpdate_self]
        simp [hne]
      · rw [hraw, rawUpdate_ne _ _ (fun hh => hk hh.symm)]
        rw [hpre.2.2.2.2.2.2.2.2.2.2.1 hk] at hne
        exact hinv.2.2.2.2.2.2.1 hne
    · intro hne
      by_cases hk : k = "spark.app.name"
      · subst hk
        rw [heff.2.2.2.2.2.2.2 rfl, hraw, rawUpdate_self]
      · rw [hpre.2.2.2.2.2.2.2.2.2.2.2 hk, hraw, rawUpdate_ne _ _ (fun hh => hk hh.symm)]
        rw [hpre.2.2.2.2.2.2.2.2.2.2.2 hk] at hne
        exact hinv.2.2.2.2.2.2.2 hne

theorem foldDefaults_invariant (ls : List (List Char)) :
    ∀ {cfg c' : SparkConfig}, foldDefaultsLines cfg ls = .ok c' →
    kvInvariant cfg → kvInvariant c' := by
  induction ls with
  | nil =>
    intro cfg c' h hinv
    injection h with h
    subst h
    exact hinv
  | cons l ls ih =>
    intro cfg c' h hinv
    rw [foldDefaultsLines] at h
    cases hp : parseDefaultsLine cfg l with
    | error e => rw [hp] at h; exact Except.noConfusion h
    | ok c =>
      rw [hp] at h
      exact ih h (parseDefaultsLine_invariant hp hinv)

theorem applyConf_char {cfg c' : SparkConfig} {kv : List Char × List Char}
    (h : applyConf cfg kv = .ok c') :
    c'.raw_configs = rawUpdate cfg.raw_configs (String.mk kv.1) (String.mk kv.2)
    ∧ (String.mk kv.1 = "spark.default.parallelism" →
        c'.default_parallelism = pyIntS (String.mk kv.2))
    ∧ (String.mk kv.1 ≠ "spark.default.parallelism" →
        c'.default_parallelism = cfg.default_parallelism)
    ∧ (String.mk kv.1 = "spark.sql.shuffle.partitions" →
        c'.shuffle_partitions = pyIntS (String.mk kv.2))
    ∧ (String.mk kv.1 ≠ "spark.sql.shuffle.partitions" →
        c'.shuffle_partitions = cfg.shuffle_partitions)
    ∧ (String.mk kv.1 = "spark.dynamicAllocation.enabled" →
        c'.dynamic_allocation_enabled = decide (pyLower (String.mk kv.2) = "true"))
    ∧ (String.mk kv.1 ≠ "spark.dynamicAllocation.enabled" →
        c'.dynamic_allocation_enabled = cfg.dynamic_allocation_enabled) := by
  unfold applyConf at h
  simp only [] at h
  split_ifs at h with h1 h2 h3
  all_goals try split at h
  all_goals first
    | exact Except.noConfusion h
    | (injection h with h; subst h; simp_all)

theorem applyConf_invariant {cfg c' : SparkConfig} {kv : List Char × List Char}
    (h : applyConf cfg kv = .ok c') (hinv : confInvariant cfg) : confInvariant c' := by
  have hc := applyConf_char h
  refine ⟨?_, ?_, ?_⟩
  · intro hne
    by_cases hk : String.mk kv.1 = "spark.default.parallelism"
    · rw [hc.2.1 hk, hc.1, ← hk, rawUpdate_self]
      rfl
    · rw [hc.2.2.1 hk, hc.1, rawUpdate_ne _ _ (fun hh => hk hh.symm)]
      rw [hc.2.2.1 hk] at hne
      exact hinv.1 hne
  · intro hne
    by_cases hk : String.mk kv.1 = "spark.sql.shuffle.partitions"
    · rw [hc.2.2.2.1 hk, hc.1, ← hk, rawUpdate_self]
      rfl
    · rw [hc.2.2.2.2.1 hk, hc.1, rawUpdate_ne _ _ (fun hh => hk hh.symm)]
      rw [hc.2.2.2.2.1 hk] at hne
      exact hinv.2.1 hne
  · intro hne
    by_cases hk : String.mk kv.1 = "spark.dynamicAllocation.enabled"
    · rw [hc.2.2.2.2.2.1 hk] at hne
      rw [hc.1, ← hk, rawUpdate_self]
      simp [hne]
    · rw [hc.1, rawUpdate_ne _ _ (fun hh => hk hh.symm)]
      rw [hc.2.2.2.2.2.2 hk] at hne
      exact hinv.2.2 hne

theorem foldConfs_invariant (kvs : List (List Char × List Char)) :
    ∀ {cfg c' : SparkConfig}, foldConfs cfg kvs = .ok c' →
    confInvariant cfg → confInvariant c' := by
  induction kvs with
  | nil =>
    intro cfg c' h hinv
    injection h with h
    subst h
    exact hinv
  | cons kv kvs ih =>
    intro cfg c' h hinv
    rw [foldConfs] at h
    cases hp : applyConf cfg kv with
    | error e => rw [hp] at h; exact Except.noConfusion h
    | ok c =>
      rw [hp] at h
      exact ih h (applyConf_invariant hp hinv)

theorem extractFlags_conf_fields (full : List Char) (cfg : SparkConfig) :
    (extractFlags full cfg).default_parallelism = cfg.default_parallelism
    ∧ (extractFlags full cfg).shuffle_partitions = cfg.shuffle_partitions
    ∧ (extractFlags full cfg).dynamic_allocation_enabled = cfg.dynamic_allocation_enabled
    ∧ (extractFlags full cfg).raw_configs = cfg.raw_configs := by
  unfold extractFlags
  repeat' split
  all_goals exact ⟨rfl, rfl, rfl, rfl⟩

theorem nameFallback_conf_fields (full : List Char) (cfg : SparkConfig) :
    (nameFallback full cfg).default_parallelism = cfg.default_parallelism
    ∧ (nameFallback full cfg).shuffle_partitions = cfg.shuffle_partitions
    ∧ (nameFallback full cfg).dynamic_allocation_enabled = cfg.dynamic_allocation_enabled
    ∧ (nameFallback full cfg).raw_configs = cfg.raw_configs := by
  unfold nameFallback
  repeat' split
  all_goals exact ⟨rfl, rfl, rfl, rfl⟩

theorem confInvariant_of_fields {cfg c : SparkConfig}
    (h1 : c.default_parallelism = cfg.default_parallelism)
    (h2 : c.shuffle_partitions = cfg.shuffle_partitions)
    (h3 : c.dynamic_allocation_enabled = cfg.dynamic_allocation_enabled)
    (h4 : c.raw_configs = cfg.raw_configs)
    (hinv : confInvariant cfg) : confInvariant c := by
  unfold confInvariant at hinv ⊢
  rw [h1, h2, h3, h4]
  exact hinv

/-- A deploy script that sets driver memory through a positional flag only. -/
def fsFlagOnly : String → Option String :=
  fun p => if p = "deploy.sh" then some "spark-submit --driver-memory 4g" else none

/-- Claim C1 counterexample: the deploy-script dialect promotes
`--driver-memory 4g` to the typed field but records nothing under
`spark.driver.memory` in `raw_settings`, so the round-trip invariant fails
for flag-promoted fields. -/
theorem script_flag_not_in_raw_counterexample :
    (getOk (parse_spark_submit_script fsFlagOnly "deploy.sh")).map
        (fun c => c.driver_memory) = some (some "4g")
    ∧ (getOk (parse_spark_submit_script fsFlagOnly "deploy.sh")).map
        (fun c => c.raw_configs "spark.driver.memory") = some none := by
  exact ⟨by decide, by decide⟩

/-- Claim C1 (amended): in the key/value dialect every present typed field
also appears in raw string form in `raw_settings` under its canonical
setting name; in the deploy-script dialect this holds only for the settings
promoted from `--conf` occurrences (`spark.default.parallelism`,
`spark.sql.shuffle.partitions`, `spark.dynamicAllocation.enabled`), while
fields promoted from positional flags or `APP_NAME`/`--name` are not
recorded in `raw_settings`. -/
theorem raw_settings_round_trip :
    (∀ (fs : String → Option String) (path : String) (cfg : SparkConfig),
      parse_spark_defaults fs path = .ok cfg → kvInvariant cfg)
    ∧ (∀ (fs : String → Option String) (path : String) (cfg : SparkConfig),
      parse_spark_submit_script fs path = .ok cfg → confInvariant cfg) := by
  constructor
  · intro fs path cfg h
    unfold parse_spark_defaults at h
    cases hfs : fs path with
    | none =>
      rw [hfs] at h
      injection h with h
      subst h
      simp [kvInvariant, SparkConfig.init]
    | some text =>
      simp only [hfs] at h
      exact foldDefaults_invariant _ h (by simp [kvInvariant, SparkConfig.init])
  · intro fs path cfg h
    unfold parse_spark_submit_script at h
    cases hfs : fs path with
    | none =>
      rw [hfs] at h
      injection h with h
      subst h
      simp [confInvariant, SparkConfig.init]
    | some text =>
      simp only [hfs] at h
      set full := spaceJoin (joinLines (pyLinesL text.data)) with hfull
      cases hfold : foldConfs (extractFlags full (SparkConfig.init path)) (findConfs full) with
      | error e => rw [hfold] at h; exact Except.noConfusion h
      | ok c =>
        rw [hfold] at h
        injection h with h
        subst h
        have hstart : confInvariant (extractFlags full (SparkConfig.init path)) := by
          obtain ⟨e1, e2, e3, e4⟩ := extractFlags_conf_fields full (SparkConfig.init path)
          exact confInvariant_of_fields e1 e2 e3 e4
            (by simp [confInvariant, SparkConfig.init])
        have hc := foldConfs_invariant _ hfold hstart
        obtain ⟨n1, n2, n3, n4⟩ := nameFallback_conf_fields full c
        exact confInvariant_of_fields n1 n2 n3 n4 hc

/-- A defaults file and deploy script for the C1 witness. -/
def fsRoundTrip : String → Option String :=
  fun p =>
    if p = "spark-defaults.conf" then some "spark.executor.cores=4"
    else if p = "go.sh" then some "spark-submit --conf spark.sql.shuffle.partitions=300"
    else none

/-- The record the witness defaults file parses to. -/
def cfgRoundTripKV : SparkConfig :=
  { source_file := "spark-defaults.conf"
    executor_cores := some 4
    raw_configs := rawUpdate (fun _ => none) "spark.executor.cores" "4" }

/-- The record the witness deploy script parses to. -/
def cfgRoundTripSh : SparkConfig :=
  { source_file := "go.sh"
    shuffle_partitions := some 300
    raw_configs := rawUpdate (fun _ => none) "spark.sql.shuffle.partitions" "300" }

/-- Witness for the amended C1: both dialect invariants at concrete parses. -/
theorem raw_settings_round_trip_witness :
    kvInvariant cfgRoundTripKV ∧ confInvariant cfgRoundTripSh :=
  ⟨raw_settings_round_trip.1 fsRoundTrip "spark-defaults.conf" cfgRoundTripKV (by rfl),
   raw_settings_round_trip.2 fsRoundTrip "go.sh" cfgRoundTripSh (by rfl)⟩
